import Mathlib

/-
Verification of the api-lab-mcp test-execution engine.

This file shallowly embeds the core of the repository:
  - ValidationService (src/core/services/ValidationService.ts): the assertion
    engine (validateStatus, validateHeader, validateBody, validateJsonPath,
    validateResponseTime, validateContentType, validateContains,
    validateMatches, validateAssertions, getReport);
  - BatchTestService (src/core/services/BatchTestService.ts): the batch
    orchestrator (executeSequential, executeParallel, executeTest,
    generateReport) — the parallel scheduler is embedded as a small-step
    transition system over the event-loop interleavings;
  - HttpTestClient (src/http/HttpTestClient.ts): the response-interceptor
    retry loop and shouldRetry;
  - AuthenticationService (the OAuth2 client-credentials token cache,
    fetchOAuth2Token).

JavaScript dynamic values are modelled by the JsValue type; external
libraries (the jsonpath npm package and the JS RegExp engine) are modelled
as parameters (JsEngines), with a concrete executable instance
(demoEngines) used for witnesses and counterexamples.  Wall-clock time
fields (executionTime, duration of a request) are not modelled; they never
affect control flow in the embedded code.
-/

/-- Model of a JavaScript/JSON dynamic value (string, number, boolean,
null, array, object).  Numbers are modelled as integers; the embedded code
only compares and displays them. -/
inductive JsValue where
  | str (s : String)
  | num (n : Int)
  | bool (b : Bool)
  | null
  | arr (xs : List JsValue)
  | obj (fs : List (String × JsValue))
deriving Repr

/-- Model of JavaScript object / Map indexing `o[k]`: the value stored at
the first exactly-matching key, if any. -/
def objGet {α : Type} (kvs : List (String × α)) (k : String) : Option α :=
  (kvs.find? (fun kv => kv.1 == k)).map (fun kv => kv.2)

/-- Model of JavaScript `Map.set` / object assignment: replace the first
binding of the key, or append a new binding. -/
def objSet {α : Type} (kvs : List (String × α)) (k : String) (v : α) : List (String × α) :=
  match kvs with
  | [] => [(k, v)]
  | kv :: rest => if kv.1 == k then (k, v) :: rest else kv :: objSet rest k v

/-- Model of JavaScript `a.includes(b)` on strings (substring test). -/
def strIncludes (s pattern : String) : Bool :=
  decide (pattern.toList <:+: s.toList)

/-- Model of JavaScript `s.toLowerCase()` (ASCII case folding, matching
Char.toLower; the headers exercised here are ASCII). -/
def strToLower (s : String) : String :=
  ⟨s.data.map Char.toLower⟩

/- Model of `JSON.stringify` restricted to JSON-shaped values (string
escaping is not modelled; the embedded comparisons only need injectivity
on the values exercised here). -/
mutual

def jsonStringify : JsValue → String
  | .str s => "\"" ++ s ++ "\""
  | .num n => toString n
  | .bool b => if b then "true" else "false"
  | .null => "null"
  | .arr xs => "[" ++ jsonStringifyList xs ++ "]"
  | .obj fs => "\x7b" ++ jsonStringifyFields fs ++ "\x7d"

def jsonStringifyList : List JsValue → String
  | [] => ""
  | [x] => jsonStringify x
  | x :: y :: xs => jsonStringify x ++ "," ++ jsonStringifyList (y :: xs)

def jsonStringifyFields : List (String × JsValue) → String
  | [] => ""
  | [f] => "\"" ++ f.1 ++ "\":" ++ jsonStringify f.2
  | f :: g :: fs => "\"" ++ f.1 ++ "\":" ++ jsonStringify f.2 ++ "," ++ jsonStringifyFields (g :: fs)

end

/- Model of the JavaScript `String(v)` coercion used by template literals
and by `includes` on a non-string argument. -/
mutual

def jsDisplay : JsValue → String
  | .str s => s
  | .num n => toString n
  | .bool b => if b then "true" else "false"
  | .null => "null"
  | .arr xs => jsDisplayList xs
  | .obj _ => "[object Object]"

def jsDisplayList : List JsValue → String
  | [] => ""
  | [x] => jsDisplay x
  | x :: y :: xs => jsDisplay x ++ "," ++ jsDisplayList (y :: xs)

end

/-- Model of `typeof body === 'string' ? body : JSON.stringify(body)`,
the canonical body serialization used throughout ValidationService. -/
def bodyToString : JsValue → String
  | .str s => s
  | v => jsonStringify v

/-- Strict equality `===` of a JS string against a dynamic value. -/
def jsStrictEqStr (actual : String) (expected : JsValue) : Bool :=
  match expected with
  | .str s => actual == s
  | _ => false

/-- Strict equality `===` of a JS number against a dynamic value. -/
def jsStrictEqNum (actual : Nat) (expected : JsValue) : Bool :=
  match expected with
  | .num m => (actual : Int) == m
  | _ => false

/-- Model of the JS relational comparison `actual < expected` where actual
is a number and expected a dynamic value (ToNumber coercion; values that
coerce to NaN — unparsable strings, arrays, objects — compare false). -/
def jsLtNum (actual : Nat) (expected : JsValue) : Bool :=
  match expected with
  | .num m => decide ((actual : Int) < m)
  | .str s =>
    match s.toInt? with
    | some m => decide ((actual : Int) < m)
    | none => false
  | .bool b => decide ((actual : Int) < (if b then 1 else 0))
  | .null => decide ((actual : Int) < 0)
  | _ => false

/-- Model of the JS relational comparison `actual >= expected`, dual to
jsLtNum. -/
def jsGeNum (actual : Nat) (expected : JsValue) : Bool :=
  match expected with
  | .num m => decide (m ≤ (actual : Int))
  | .str s =>
    match s.toInt? with
    | some m => decide (m ≤ (actual : Int))
    | none => false
  | .bool b => decide ((if b then (1 : Int) else 0) ≤ (actual : Int))
  | .null => decide ((0 : Int) ≤ (actual : Int))
  | _ => false

/-- Model of the JS `a || b` chain on possibly-absent strings: the first
operand if it is truthy (present and non-empty), else the second. -/
def jsOrStr (a b : Option String) : Option String :=
  match a with
  | some s => if s == "" then b else some s
  | none => b

/-- JS falsiness of a possibly-absent string: absent or empty. -/
def jsFalsyStr (a : Option String) : Bool :=
  match a with
  | some s => s == ""
  | none => true

/-- Model of `str.substring(0, 200) + (str.length > 200 ? '...' : '')`
used for the `actual` previews of contains/matches results. -/
def jsPreview (s : String) : String :=
  (s.take 200) ++ (if 200 < s.length then "..." else "")

/-- The assertion `type` discriminator of ValidationService
(AssertionType in the source; note `bodyJson` is declared but has no case
in the validateAssertions switch). -/
inductive AssertionType where
  | status | header | body | bodyJson | bodyJsonPath
  | responseTime | contentType | contains | notContains | matches
deriving Repr, DecidableEq

/-- The assertion `operator` field (the source's string union; `existsOp`
embeds the source's `exists`). -/
inductive Operator where
  | equals | contains | lessThan | greaterThan | matches | existsOp
deriving Repr, DecidableEq

/-- An Assertion record, as in ValidationService.ts. -/
structure Assertion where
  type : AssertionType
  path : Option String
  expected : JsValue
  operator : Option Operator
  message : Option String
deriving Repr

/-- A ValidationResult record, as in ValidationService.ts. -/
structure ValidationResult where
  passed : Bool
  assertion : Assertion
  actual : Option JsValue
  error : Option String
  duration : Option Nat
deriving Repr

/-- A ValidationReport record, as in ValidationService.ts (executionTime,
a wall-clock quantity, is modelled as 0). -/
structure ValidationReport where
  totalAssertions : Nat
  passedAssertions : Nat
  failedAssertions : Nat
  results : List ValidationResult
  overallPassed : Bool
  executionTime : Nat
deriving Repr

/-- The display name of an operator, used in default messages. -/
def opDisplay : Operator → String
  | .equals => "equals"
  | .contains => "contains"
  | .lessThan => "lessThan"
  | .greaterThan => "greaterThan"
  | .matches => "matches"
  | .existsOp => "exists"

/-- Embedding of ValidationService.validateStatus: passes iff the numeric
response status strictly equals the expected value. -/
def validateStatus (actual : Nat) (expected : JsValue) (message : Option String) : ValidationResult :=
  let passed := jsStrictEqNum actual expected
  { passed := passed
    assertion :=
      { type := .status, path := none, expected := expected, operator := some .equals
        message := some (message.getD ("Expected status " ++ jsDisplay expected)) }
    actual := some (.num actual)
    error := if passed then none
             else some ("Status " ++ toString actual ++ " does not match expected " ++ jsDisplay expected)
    duration := none }

/-- Embedding of ValidationService.validateHeader: the source looks up
`headers[headerName.toLowerCase()] || headers[headerName]` (JS object
indexing, so two exact-key probes), reports not-found when that chain is
falsy, and otherwise applies the equals/contains operator; operators other
than equals/contains leave passed=false with no error. -/
def validateHeader (headers : List (String × String)) (headerName : String)
    (expected : JsValue) (op : Operator) (message : Option String) : ValidationResult :=
  let actual := jsOrStr (objGet headers (strToLower headerName)) (objGet headers headerName)
  let assertion : Assertion :=
    { type := .header, path := some headerName, expected := expected, operator := some op
      message := some (message.getD
        ("Expected header " ++ headerName ++ " to " ++ opDisplay op ++ " \"" ++ jsDisplay expected ++ "\"")) }
  if jsFalsyStr actual then
    { passed := false, assertion := assertion, actual := actual.map .str
      error := some ("Header " ++ headerName ++ " not found"), duration := none }
  else
    let v := actual.getD ""
    match op with
    | .equals =>
      let passed := jsStrictEqStr v expected
      { passed := passed, assertion := assertion, actual := some (.str v)
        error := if passed then none
                 else some ("Header " ++ headerName ++ " value \"" ++ v ++ "\" does not equal \"" ++ jsDisplay expected ++ "\"")
        duration := none }
    | .contains =>
      let passed := strIncludes v (jsDisplay expected)
      { passed := passed, assertion := assertion, actual := some (.str v)
        error := if passed then none
                 else some ("Header " ++ headerName ++ " value \"" ++ v ++ "\" does not contain \"" ++ jsDisplay expected ++ "\"")
        duration := none }
    | _ =>
      { passed := false, assertion := assertion, actual := some (.str v)
        error := none, duration := none }

/-- Embedding of ValidationService.validateBody: equals compares the
canonical string forms, contains is a substring test; other operators
leave passed=false with no error. -/
def validateBody (body expected : JsValue) (op : Operator) (message : Option String) : ValidationResult :=
  let bodyStr := bodyToString body
  let expectedStr := bodyToString expected
  let assertion : Assertion :=
    { type := .body, path := none, expected := expected, operator := some op
      message := some (message.getD ("Expected body to " ++ opDisplay op ++ " specified value")) }
  match op with
  | .equals =>
    let passed := bodyStr == expectedStr
    { passed := passed, assertion := assertion, actual := some body
      error := if passed then none else some "Body does not equal expected value"
      duration := none }
  | .contains =>
    let passed := strIncludes bodyStr expectedStr
    { passed := passed, assertion := assertion, actual := some body
      error := if passed then none else some "Body does not contain expected value"
      duration := none }
  | _ =>
    { passed := false, assertion := assertion, actual := some body
      error := none, duration := none }

/-- The external engines ValidationService relies on: the jsonpath npm
package (whose query can throw on a malformed expression) and the JS
RegExp constructor (which throws on an invalid pattern and otherwise
yields a matcher). -/
structure JsEngines where
  jsonpathQuery : JsValue → String → Except String (List JsValue)
  regexCompile : String → Except String (String → Bool)

/-- Embedding of ValidationService.validateJsonPath: the jsonpath query is
wrapped in try/catch in the source, so a throwing query is recorded as a
failed result carrying "JSONPath error: ..." and never propagates. -/
def validateJsonPath (E : JsEngines) (body : JsValue) (jsonPath : String)
    (expected : JsValue) (op : Operator) (message : Option String) : ValidationResult :=
  let assertion : Assertion :=
    { type := .bodyJsonPath, path := some jsonPath, expected := expected, operator := some op
      message := some (message.getD
        ("Expected JSONPath " ++ jsonPath ++ " to " ++ opDisplay op ++ " \"" ++ jsDisplay expected ++ "\"")) }
  match E.jsonpathQuery body jsonPath with
  | .error e =>
    { passed := false, assertion := assertion, actual := none
      error := some ("JSONPath error: " ++ e), duration := none }
  | .ok results =>
    match op with
    | .existsOp =>
      { passed := !results.isEmpty, assertion := assertion, actual := results.head?
        error := if results.isEmpty then some ("JSONPath " ++ jsonPath ++ " did not match any elements") else none
        duration := none }
    | _ =>
      match results with
      | [] =>
        { passed := false, assertion := assertion, actual := none
          error := some ("JSONPath " ++ jsonPath ++ " did not match any elements"), duration := none }
      | a :: _ =>
        match op with
        | .equals =>
          let passed := jsonStringify a == jsonStringify expected
          { passed := passed, assertion := assertion, actual := some a
            error := if passed then none else some ("JSONPath " ++ jsonPath ++ " value does not equal expected")
            duration := none }
        | .contains =>
          let actualStr := bodyToString a
          let expectedStr := bodyToString expected
          let passed := strIncludes actualStr expectedStr
          { passed := passed, assertion := assertion, actual := some a
            error := if passed then none else some ("JSONPath " ++ jsonPath ++ " value does not contain expected")
            duration := none }
        | _ =>
          { passed := false, assertion := assertion, actual := some a
            error := none, duration := none }

/-- Embedding of ValidationService.validateResponseTime: passes iff
`actual < maxTime` (strict less-than); the error is set when
`actual >= maxTime`. -/
def validateResponseTime (actual : Nat) (maxTime : JsValue) (message : Option String) : ValidationResult :=
  { passed := jsLtNum actual maxTime
    assertion :=
      { type := .responseTime, path := none, expected := maxTime, operator := some .lessThan
        message := some (message.getD ("Expected response time < " ++ jsDisplay maxTime ++ "ms")) }
    actual := some (.num actual)
    error := if jsGeNum actual maxTime then
               some ("Response time " ++ toString actual ++ "ms exceeds maximum " ++ jsDisplay maxTime ++ "ms")
             else none
    duration := some actual }

/-- Embedding of ValidationService.validateContentType: case-insensitive
substring match of the content-type header against the expected string; a
non-string expected value makes the source's `expected.toLowerCase()`
throw a TypeError. -/
def validateContentType (headers : List (String × String)) (expected : JsValue)
    (message : Option String) : Except String ValidationResult :=
  match expected with
  | .str e =>
    let contentType := (jsOrStr (objGet headers "content-type") (objGet headers "Content-Type")).getD ""
    let passed := strIncludes (strToLower contentType) (strToLower e)
    .ok
      { passed := passed
        assertion :=
          { type := .contentType, path := none, expected := .str e, operator := some .contains
            message := some (message.getD ("Expected content-type to contain \"" ++ e ++ "\"")) }
        actual := some (.str contentType)
        error := if passed then none
                 else some ("Content-Type \"" ++ contentType ++ "\" does not contain \"" ++ e ++ "\"")
        duration := none }
  | _ => .error "TypeError: expected.toLowerCase is not a function"

/-- Embedding of ValidationService.validateContains (used for both the
contains and notContains assertion types via shouldContain). -/
def validateContains (body : JsValue) (searchString : JsValue) (shouldContain : Bool)
    (message : Option String) : ValidationResult :=
  let bodyStr := bodyToString body
  let search := jsDisplay searchString
  let contains := strIncludes bodyStr search
  let passed := if shouldContain then contains else !contains
  { passed := passed
    assertion :=
      { type := if shouldContain then .contains else .notContains
        path := none, expected := searchString, operator := some .contains
        message := some (message.getD
          ("Expected body to " ++ (if shouldContain then "contain" else "not contain") ++ " \"" ++ search ++ "\"")) }
    actual := some (.str (jsPreview bodyStr))
    error := if passed then none
             else some ("Body " ++ (if shouldContain then "does not contain" else "contains") ++ " \"" ++ search ++ "\"")
    duration := none }

/-- Embedding of ValidationService.validateMatches: the source compiles a
string pattern with `new RegExp(pattern)` OUTSIDE any try/catch, so an
invalid pattern propagates the constructor's exception; a non-string
(JSON) pattern reaches `regex.test` and throws a TypeError. -/
def validateMatches (E : JsEngines) (body : JsValue) (pattern : JsValue)
    (message : Option String) : Except String ValidationResult :=
  let bodyStr := bodyToString body
  match pattern with
  | .str p =>
    match E.regexCompile p with
    | .error e => .error e
    | .ok test =>
      let passed := test bodyStr
      .ok
        { passed := passed
          assertion :=
            { type := .matches, path := none, expected := .str p, operator := some .matches
              message := some (message.getD ("Expected body to match pattern " ++ p)) }
          actual := some (.str (jsPreview bodyStr))
          error := if passed then none else some ("Body does not match pattern " ++ p)
          duration := none }
  | _ => .error "TypeError: regex.test is not a function"

/-- The response record validateAssertions consumes (HttpResponse from
HttpTestClient.prepareResponse): status, statusText, headers, data, and
optional metrics carrying the measured duration. -/
structure RequestMetricsM where
  duration : Nat
deriving Repr

/-- An HTTP response as seen by the validation and batch layers. -/
structure HttpResponseM where
  status : Nat
  statusText : String
  headers : List (String × String)
  data : JsValue
  metrics : Option RequestMetricsM
deriving Repr

/-- One step of the validateAssertions switch: `.ok none` when the case
falls through without recording a result (header / bodyJsonPath with a
falsy path, responseTime with a falsy metrics duration, and the bodyJson
type which has no case at all), `.ok (some r)` when a result is recorded,
`.error` when the underlying validator throws. -/
def evalOne (E : JsEngines) (resp : HttpResponseM) (a : Assertion) : Except String (Option ValidationResult) :=
  match a.type with
  | .status => .ok (some (validateStatus resp.status a.expected a.message))
  | .header =>
    match a.path with
    | some p =>
      if p == "" then .ok none
      else .ok (some (validateHeader resp.headers p a.expected (a.operator.getD .equals) a.message))
    | none => .ok none
  | .body => .ok (some (validateBody resp.data a.expected (a.operator.getD .equals) a.message))
  | .bodyJson => .ok none
  | .bodyJsonPath =>
    match a.path with
    | some p =>
      if p == "" then .ok none
      else .ok (some (validateJsonPath E resp.data p a.expected (a.operator.getD .equals) a.message))
    | none => .ok none
  | .responseTime =>
    match resp.metrics with
    | some m =>
      if m.duration == 0 then .ok none
      else .ok (some (validateResponseTime m.duration a.expected a.message))
    | none => .ok none
  | .contentType => (validateContentType resp.headers a.expected a.message).map some
  | .contains => .ok (some (validateContains resp.data a.expected true a.message))
  | .notContains => .ok (some (validateContains resp.data a.expected false a.message))
  | .matches => (validateMatches E resp.data a.expected a.message).map some

/-- The loop of validateAssertions: evaluate each assertion in array
order, accumulating recorded results; a thrown exception aborts the loop
(propagating out of the method). -/
def evalAssertions (E : JsEngines) (resp : HttpResponseM) : List Assertion → Except String (List ValidationResult)
  | [] => .ok []
  | a :: as =>
    match evalOne E resp a with
    | .error e => .error e
    | .ok none => evalAssertions E resp as
    | .ok (some r) =>
      match evalAssertions E resp as with
      | .error e => .error e
      | .ok rs => .ok (r :: rs)

/-- Embedding of ValidationService.getReport over the accumulated
results. -/
def mkReport (rs : List ValidationResult) : ValidationReport :=
  { totalAssertions := rs.length
    passedAssertions := (rs.filter (fun r => r.passed)).length
    failedAssertions := (rs.filter (fun r => !r.passed)).length
    results := rs
    overallPassed := (rs.filter (fun r => !r.passed)).length == 0
    executionTime := 0 }

/-- Embedding of ValidationService.validateAssertions: reset, run the
switch over the assertion array, and return getReport() — unless one of
the validators throws, in which case the exception escapes. -/
def validateAssertions (E : JsEngines) (resp : HttpResponseM) (assertions : List Assertion) :
    Except String ValidationReport :=
  (evalAssertions E resp assertions).map mkReport

/-- Parenthesis balance scan underlying the demo regex compiler: JS's
RegExp constructor rejects (among others) patterns with unbalanced
parentheses, such as "(". -/
def parenOk : List Char → Nat → Bool
  | [], 0 => true
  | [], _ + 1 => false
  | c :: cs, d =>
    if c = '(' then parenOk cs (d + 1)
    else if c = ')' then
      match d with
      | 0 => false
      | d' + 1 => parenOk cs d'
    else parenOk cs d

/-- A concrete executable model of the JS RegExp engine for witnesses: a
pattern with unbalanced parentheses fails to compile (as "(" does in JS),
and a compiled metacharacter-free pattern matches as a literal substring
test. -/
def demoRegexCompile (p : String) : Except String (String → Bool) :=
  if parenOk p.toList 0 then .ok (fun s => strIncludes s p)
  else .error ("Invalid regular expression: /" ++ p ++ "/")

/-- Split a character list on '.' separators (the demo engine's path
lexer). -/
def splitDotAux : List Char → List Char → List (List Char)
  | [], acc => [acc.reverse]
  | c :: cs, acc =>
    if c = '.' then acc.reverse :: splitDotAux cs []
    else splitDotAux cs (c :: acc)

/-- Parse a simple dotted JSONPath ("$", "$.a.b", ...) for the demo
engine; anything else (such as "$[") is a parse error, as the jsonpath
npm package throws on malformed expressions. -/
def parseJsonPath (p : String) : Except String (List String) :=
  match splitDotAux p.toList [] with
  | root :: fields =>
    if root = ['$'] && fields.all (fun f => !f.isEmpty && f.all (fun c => c.isAlphanum || c = '_')) then
      .ok (fields.map (fun f => ⟨f⟩))
    else .error ("Lexical error in " ++ p)
  | [] => .error ("Lexical error in " ++ p)

/-- Walk a parsed child-field path through a value; a missing field yields
no matches. -/
def jsWalk (v : JsValue) (fields : List String) : List JsValue :=
  match fields with
  | [] => [v]
  | f :: fs =>
    match v with
    | .obj kvs =>
      match objGet kvs f with
      | some v' => jsWalk v' fs
      | none => []
    | _ => []

/-- A concrete executable instance of the external engines, used to
evaluate witnesses and counterexamples. -/
def demoEngines : JsEngines :=
  { jsonpathQuery := fun body p => (parseJsonPath p).map (jsWalk body)
    regexCompile := demoRegexCompile }

/-- Decides whether the validateAssertions switch records a result for an
assertion (versus falling through): header and bodyJsonPath need a truthy
path, responseTime needs a truthy metrics duration, bodyJson has no case,
and every other type always records one result. -/
def isHandled (resp : HttpResponseM) (a : Assertion) : Bool :=
  match a.type with
  | .header | .bodyJsonPath =>
    match a.path with
    | some p => p != ""
    | none => false
  | .responseTime =>
    match resp.metrics with
    | some m => m.duration != 0
    | none => false
  | .bodyJson => false
  | _ => true

/-- A BatchTestResult record, as in src/types/batch.ts (duration, a
wall-clock quantity, is not modelled; assertionResults is the
(passed, failed, total) summary). -/
structure BatchResultM where
  name : String
  url : String
  method : String
  success : Bool
  status : Option Nat
  statusText : Option String
  error : Option String
  assertionResults : Option (Nat × Nat × Nat)
deriving Repr

/-- A BatchTestRequest record (transport-facing fields such as headers,
body, params and auth feed only the HTTP call, which the model abstracts
as an outcome oracle). -/
structure TestM where
  name : String
  url : String
  method : Option String
  assertions : List Assertion
  delay : Option Nat
deriving Repr

/-- The defaulted batch options (Required<BatchTestOptions> after
executeBatch applies its defaults). -/
structure BatchOptsM where
  parallel : Bool
  maxConcurrent : Nat
  stopOnFailure : Bool
  delayBetween : Nat
  timeout : Nat
  retryOnFailure : Bool
  retryAttempts : Nat
deriving Repr

/-- An error thrown by the HTTP layer: an axios rejection carries the
response status/statusText when a response was received (4xx/5xx) and
none for a pure transport failure. -/
structure ErrM where
  message : String
  responseStatus : Option Nat
  responseStatusText : Option String
deriving Repr, DecidableEq

/-- The retry loop of BatchTestService.executeTest: `out n` is the result
of the (n+1)-th HTTP call; the loop retries on ANY thrown error while
attempts remain (it never inspects the status), and the returned Nat
counts the HTTP calls issued. -/
def runRetry (out : Nat → Except ErrM HttpResponseM) (start : Nat) : Nat → Nat × Except ErrM HttpResponseM
  | 0 => (0, .error { message := "unreachable: maxAttempts is always at least 1", responseStatus := none, responseStatusText := none })
  | remaining + 1 =>
    match out start with
    | .ok r => (1, .ok r)
    | .error e =>
      if remaining = 0 then (1, .error e)
      else
        let (n, res) := runRetry out (start + 1) remaining
        (n + 1, res)

/-- Embedding of BatchTestService.executeTest: run the retry loop
(maxAttempts = retryAttempts + 1 when retryOnFailure, else 1), then run
assertions if any; the result's success flag is true exactly when the
try block completes, regardless of how many assertions failed.  Returns
the BatchTestResult together with the number of HTTP calls issued. -/
def executeTest (E : JsEngines) (out : Nat → Except ErrM HttpResponseM)
    (opts : BatchOptsM) (test : TestM) : BatchResultM × Nat :=
  let method := test.method.getD "GET"
  let maxAttempts := if opts.retryOnFailure then opts.retryAttempts + 1 else 1
  let (calls, outcome) := runRetry out 0 maxAttempts
  match outcome with
  | .error e =>
    ({ name := test.name, url := test.url, method := method, success := false
       status := e.responseStatus, statusText := e.responseStatusText
       error := some (if e.message == "" then "Request failed" else e.message)
       assertionResults := none }, calls)
  | .ok resp =>
    match test.assertions with
    | [] =>
      ({ name := test.name, url := test.url, method := method, success := true
         status := some resp.status, statusText := some resp.statusText
         error := none, assertionResults := none }, calls)
    | _ :: _ =>
      match validateAssertions E resp test.assertions with
      | .error e =>
        ({ name := test.name, url := test.url, method := method, success := false
           status := none, statusText := none
           error := some (if e == "" then "Request failed" else e)
           assertionResults := none }, calls)
      | .ok report =>
        ({ name := test.name, url := test.url, method := method, success := true
           status := some resp.status, statusText := some resp.statusText
           error := none
           assertionResults := some (report.passedAssertions, report.failedAssertions, report.totalAssertions) }, calls)

/-- Embedding of BatchTestService.executeSequential (no external abort is
raised in sequential mode; delays do not affect results): execute in
array order, push each result, and return (results, stopped) where
stopped is true exactly when stopOnFailure halted the loop on a failed
result. -/
def executeSequential {α : Type} (exec : α → BatchResultM) (stopOnFailure : Bool) :
    List α → List BatchResultM × Bool
  | [] => ([], false)
  | t :: ts =>
    let r := exec t
    if stopOnFailure && !r.success then ([r], true)
    else
      let rest := executeSequential exec stopOnFailure ts
      (r :: rest.1, rest.2)

/-- The report slice of BatchTestService.generateReport relevant to the
claims (timing aggregates are wall-clock quantities and are not
modelled). -/
structure BatchReportM where
  totalTests : Nat
  successfulTests : Nat
  failedTests : Nat
  results : List BatchResultM
  stopped : Bool
deriving Repr

/-- Embedding of the counting part of BatchTestService.generateReport. -/
def generateReport (results : List BatchResultM) (stopped : Bool) : BatchReportM :=
  { totalTests := results.length
    successfulTests := (results.filter (fun r => r.success)).length
    failedTests := (results.filter (fun r => !r.success)).length
    results := results
    stopped := stopped }

/-- Embedding of executeBatch's sequential path: run executeSequential
and generate the report from the accumulated results and stopped flag. -/
def executeBatchSequential {α : Type} (exec : α → BatchResultM) (stopOnFailure : Bool)
    (tests : List α) : BatchReportM :=
  let (rs, st) := executeSequential exec stopOnFailure tests
  generateReport rs st

/-- Embedding of HttpTestClient.shouldRetry: retry on a transport error
(no response) or on a 5xx response; never on anything else — in
particular never on a 4xx response. -/
def shouldRetry (responseStatus : Option Nat) : Bool :=
  match responseStatus with
  | none => true
  | some status => decide (500 ≤ status) && decide (status < 600)

/-- The HttpTestClient response-interceptor retry loop: `budget` is the
remaining retry budget (retryAttempts - retryCount); a rejection is
retried only while budget remains AND shouldRetry accepts the error.
Returns the number of HTTP requests issued and the final outcome. -/
def clientRun (out : Nat → Except ErrM HttpResponseM) : Nat → Nat → Nat × Except ErrM HttpResponseM
  | budget, c =>
    match out c with
    | .ok r => (1, .ok r)
    | .error e =>
      match budget with
      | 0 => (1, .error e)
      | b + 1 =>
        if shouldRetry e.responseStatus then
          let (n, res) := clientRun out b (c + 1)
          (n + 1, res)
        else (1, .error e)

/-- An OAuth2 token response ({access_token, token_type?, expires_in?,
refresh_token?, scope?}) as in AuthenticationService. -/
structure TokenResponse where
  access_token : String
  token_type : Option String
  expires_in : Option Nat
  refresh_token : Option String
  scope : Option String
deriving Repr, DecidableEq

/-- An OAuth2Config credential (the fields fetchOAuth2Token consults). -/
structure OAuth2ConfigM where
  clientId : String
  clientSecret : Option String
  scope : Option String
  tokenUrl : Option String
deriving Repr

/-- The token-cache state of an AuthenticationService instance: the
tokenCache and tokenExpiryTimes maps, both keyed by the same cache key. -/
structure AuthStateM where
  tokenCache : List (String × TokenResponse)
  tokenExpiryTimes : List (String × Nat)
deriving Repr

/-- The cache key `clientId + ":" + tokenUrl` (a missing tokenUrl
stringifies to "undefined" in the template literal). -/
def cacheKey (config : OAuth2ConfigM) : String :=
  config.clientId ++ ":" ++ (match config.tokenUrl with | some u => u | none => "undefined")

/-- The TTL taken from a token response: `tokenResponse.expires_in || 3600`
(absent — or the falsy 0 — defaults to 3600 seconds). -/
def jsExpiresIn (tok : TokenResponse) : Nat :=
  match tok.expires_in with
  | some n => if n = 0 then 3600 else n
  | none => 3600

/-- The cache-hit condition of fetchOAuth2Token (lines 807-812 of the
source): a cached token whose stored expiry time is truthy and still in
the future (`expiry && Date.now() < expiry`). -/
def cacheHit (now : Nat) (config : OAuth2ConfigM) (s : AuthStateM) : Option TokenResponse :=
  match objGet s.tokenCache (cacheKey config) with
  | some tok =>
    match objGet s.tokenExpiryTimes (cacheKey config) with
    | some expiry => if 0 < expiry && now < expiry then some tok else none
    | none => none
  | none => none

/-- The cache write performed after a token fetch completes (lines
836-843 of the source): store the token and an expiry of
`Date.now() + expiresIn * 1000` milliseconds. -/
def cacheWrite (now : Nat) (config : OAuth2ConfigM) (tok : TokenResponse) (s : AuthStateM) : AuthStateM :=
  { tokenCache := objSet s.tokenCache (cacheKey config) tok
    tokenExpiryTimes := objSet s.tokenExpiryTimes (cacheKey config) (now + jsExpiresIn tok * 1000) }

/-- Embedding of AuthenticationService.fetchOAuth2Token.  `now` is
Date.now() at this call; `fetchResult` is the outcome of the axios POST
to the token endpoint (consulted only if the call reaches the network).
Returns the token, the updated cache state, and the number of network
token fetches issued (0 on a cache hit, 1 otherwise). -/
def fetchOAuth2Token (now : Nat) (fetchResult : Except String TokenResponse)
    (config : OAuth2ConfigM) (s : AuthStateM) : Except String (TokenResponse × AuthStateM × Nat) :=
  match cacheHit now config s with
  | some tok => .ok (tok, s, 0)
  | none =>
    match config.tokenUrl with
    | none => .error "OAuth2: Token URL is required for client credentials flow"
    | some _ =>
      match fetchResult with
      | .error e => .error ("OAuth2: Failed to fetch token: " ++ e)
      | .ok tok => .ok (tok, cacheWrite now config tok s, 1)

/-- The phase of one concurrent caller of fetchOAuth2Token: before its
synchronous cache check; suspended at `await axios.post`; or returned. -/
inductive CallerPhase where
  | ready
  | fetching
  | done (tok : TokenResponse)
deriving Repr, DecidableEq

/-- The shared state of N interleaved fetchOAuth2Token callers using the
same credential: per-caller phases, the shared AuthenticationService
cache, and the total number of token fetches issued. -/
structure OAuthSys where
  phases : List CallerPhase
  cache : AuthStateM
  fetchCount : Nat
deriving Repr

/-- The event-loop interleaving of concurrent fetchOAuth2Token callers
sharing one credential.  Each caller runs two atomic segments, split at
the `await axios.post`: the first segment checks the cache and — on a
miss — issues the network fetch (checkMiss increments fetchCount); the
second segment caches the fetched token and returns.  A cache hit ends
the caller in its first segment.  There is no pending-fetch map in the
source, so nothing links one caller's in-flight fetch to another's check. -/
inductive OAuthStep (now : Nat) (config : OAuth2ConfigM) (tokR : TokenResponse) : OAuthSys → OAuthSys → Prop
  | checkHitStep (s : OAuthSys) (i : Nat) (tok : TokenResponse) :
      s.phases.get? i = some .ready →
      cacheHit now config s.cache = some tok →
      OAuthStep now config tokR s { s with phases := s.phases.set i (.done tok) }
  | checkMissStep (s : OAuthSys) (i : Nat) :
      s.phases.get? i = some .ready →
      cacheHit now config s.cache = none →
      OAuthStep now config tokR s
        { s with phases := s.phases.set i .fetching, fetchCount := s.fetchCount + 1 }
  | completeStep (s : OAuthSys) (i : Nat) :
      s.phases.get? i = some .fetching →
      OAuthStep now config tokR s
        { s with phases := s.phases.set i (.done tokR), cache := cacheWrite now config tokR s.cache }

/-- Reflexive-transitive closure of the caller interleaving. -/
inductive OAuthReach (now : Nat) (config : OAuth2ConfigM) (tokR : TokenResponse) : OAuthSys → OAuthSys → Prop
  | refl (s : OAuthSys) : OAuthReach now config tokR s s
  | tail (s₁ s₂ s₃ : OAuthSys) :
      OAuthReach now config tokR s₁ s₂ → OAuthStep now config tokR s₂ s₃ →
      OAuthReach now config tokR s₁ s₃

/-- The initial system: N callers about to run, an empty token cache, no
fetches issued. -/
def oauthInit (n : Nat) : OAuthSys :=
  { phases := List.replicate n .ready
    cache := { tokenCache := [], tokenExpiryTimes := [] }
    fetchCount := 0 }

/-- The state of the executeParallel scheduler: the not-yet-dequeued test
queue, the `executing` promise array (as the set of test ids it holds),
the set of tests started and not yet completed, the completion-ordered
results, and the abort flag. -/
structure ParState where
  queue : List Nat
  executing : Finset Nat
  running : Finset Nat
  results : List Nat
  aborted : Bool

/-- The event-loop steps of BatchTestService.executeParallel with
maxConcurrent = k.  `start`: the inner while dequeues the next test and
pushes its promise, only while fewer than k promises are in `executing`
and no abort is signalled.  `finish`: an in-flight test completes; its
first .then pushes the result and may call abort() (stopOnFailure on a
failed result).  `removeDone`: its second .then splices the promise out
of `executing`.  The number of concurrently-executing tests is
`running.card`. -/
inductive ParStep (k : Nat) : ParState → ParState → Prop
  | start (s : ParState) (t : Nat) (ts : List Nat) :
      s.queue = t :: ts →
      s.aborted = false →
      s.executing.card < k →
      ParStep k s
        { queue := ts, executing := insert t s.executing, running := insert t s.running
          results := s.results, aborted := s.aborted }
  | finish (s : ParState) (t : Nat) (ab : Bool) :
      t ∈ s.running →
      ParStep k s
        { queue := s.queue, executing := s.executing, running := s.running.erase t
          results := s.results ++ [t], aborted := s.aborted || ab }
  | removeDone (s : ParState) (t : Nat) :
      t ∈ s.executing →
      t ∉ s.running →
      ParStep k s
        { queue := s.queue, executing := s.executing.erase t, running := s.running
          results := s.results, aborted := s.aborted }

/-- Reflexive-transitive closure of the executeParallel steps. -/
inductive ParReach (k : Nat) : ParState → ParState → Prop
  | refl (s : ParState) : ParReach k s s
  | tail (s₁ s₂ s₃ : ParState) :
      ParReach k s₁ s₂ → ParStep k s₂ s₃ → ParReach k s₁ s₃

/-- The scheduler's initial state for n tests (ids 0..n-1 in queue
order): nothing executing, nothing running, no results, not aborted. -/
def parInit (n : Nat) : ParState :=
  { queue := List.range n, executing := ∅, running := ∅, results := [], aborted := false }

/-- The inductive invariant of the executeParallel scheduler: running
tests are a subset of the promises held in `executing`, at most k
promises are in `executing`, and queued tests are distinct and not yet
started. -/
def ParInv (k : Nat) (s : ParState) : Prop :=
  s.running ⊆ s.executing ∧ s.executing.card ≤ k ∧
    (∀ t ∈ s.queue, t ∉ s.executing) ∧ s.queue.Nodup

/-- Modelled from the spec's words ("case-insensitive header lookup by
name"): a fully case-insensitive lookup, used only to compare against the
source's two-probe lookup. -/
def lookupHeaderCaseInsensitiveSpec (headers : List (String × String)) (name : String) : Option String :=
  (headers.find? (fun kv => strToLower kv.1 == strToLower name)).map (fun kv => kv.2)

/-- A response used to evaluate concrete assertion runs. -/
def demoResp : HttpResponseM :=
  { status := 200, statusText := "OK"
    headers := [("content-type", "application/json")]
    data := .str "hello world"
    metrics := some { duration := 150 } }

/-- C8: a responseTime assertion's actual value is the measured duration
and it passes iff actual < expected under strict less-than; in particular
durationMs = 200 with expected = 200 yields passed = false. -/
theorem responseTime_strict_lt :
    (∀ (a : Nat) (m : Int) (msg : Option String),
      ((validateResponseTime a (.num m) msg).passed = true ↔ (a : Int) < m) ∧
      (validateResponseTime a (.num m) msg).actual = some (.num a)) ∧
    (validateResponseTime 200 (.num 200) none).passed = false := by
  refine ⟨fun a m msg => ⟨?_, rfl⟩, by decide⟩
  simp [validateResponseTime, jsLtNum]

/-- Witness for responseTime_strict_lt at a concrete input. -/
theorem responseTime_strict_lt_witness :
    ((validateResponseTime 100 (.num 200) none).passed = true ↔ (100 : Int) < 200) ∧
    (validateResponseTime 100 (.num 200) none).actual = some (.num 100) :=
  (responseTime_strict_lt.1 100 200 none)

/-- C9 counterexample: a header stored as "Content-Type" and asserted
under the casing "CONTENT-TYPE" is reported "not found" by
validateHeader — though a truly case-insensitive lookup finds it — since
the source probes only headers[name.toLowerCase()] and headers[name]. -/
theorem validateHeader_caseSensitivity_counterexample :
    (validateHeader [("Content-Type", "application/json")] "CONTENT-TYPE"
        (.str "application/json") .equals none).passed = false ∧
    (validateHeader [("Content-Type", "application/json")] "CONTENT-TYPE"
        (.str "application/json") .equals none).error = some "Header CONTENT-TYPE not found" ∧
    lookupHeaderCaseInsensitiveSpec [("Content-Type", "application/json")] "CONTENT-TYPE" =
      some "application/json" := by
  refine ⟨?_, ?_, ?_⟩ <;> decide

/-- C9 amended: the header lookup probes exactly two keys — the
lowercased assertion name, then the name as written.  A header stored
under the lowercased name (with a truthy value) has the operator
evaluated against its stored value; likewise one stored under the exact
name as written; when neither probe finds a value, the result is a
failed "not found". -/
theorem validateHeader_lookup_amended :
    (∀ (headers : List (String × String)) (name : String) (expected : JsValue) (v : String),
      objGet headers (strToLower name) = some v → v ≠ "" →
      (validateHeader headers name expected .equals none).passed = jsStrictEqStr v expected ∧
      (validateHeader headers name expected .equals none).actual = some (.str v)) ∧
    (∀ (headers : List (String × String)) (name : String) (expected : JsValue) (v : String),
      objGet headers (strToLower name) = none → objGet headers name = some v → v ≠ "" →
      (validateHeader headers name expected .equals none).passed = jsStrictEqStr v expected ∧
      (validateHeader headers name expected .equals none).actual = some (.str v)) ∧
    (∀ (headers : List (String × String)) (name : String) (expected : JsValue) (op : Operator),
      objGet headers (strToLower name) = none → objGet headers name = none →
      (validateHeader headers name expected op none).passed = false ∧
      (validateHeader headers name expected op none).error =
        some ("Header " ++ name ++ " not found")) := by
  refine ⟨fun headers name expected v h1 h2 => ?_,
          fun headers name expected v h1 h2 h3 => ?_,
          fun headers name expected op h1 h2 => ?_⟩
  · have hb : (v == "") = false := by simpa using h2
    simp [validateHeader, jsOrStr, jsFalsyStr, h1, hb]
  · have hb : (v == "") = false := by simpa using h3
    simp [validateHeader, jsOrStr, jsFalsyStr, h1, h2, hb]
  · simp [validateHeader, jsOrStr, jsFalsyStr, h1, h2]

/-- Witness for validateHeader_lookup_amended at concrete inputs. -/
theorem validateHeader_lookup_amended_witness :
    ((validateHeader [("content-type", "application/json")] "Content-Type"
        (.str "application/json") .equals none).passed =
      jsStrictEqStr "application/json" (.str "application/json") ∧
     (validateHeader [("content-type", "application/json")] "Content-Type"
        (.str "application/json") .equals none).actual = some (.str "application/json")) ∧
    ((validateHeader [("x-a", "1")] "missing" (.str "1") .equals none).error =
      some ("Header " ++ "missing" ++ " not found")) :=
  ⟨validateHeader_lookup_amended.1 [("content-type", "application/json")] "Content-Type"
      (.str "application/json") "application/json" (by decide) (by decide),
   (validateHeader_lookup_amended.2.2 [("x-a", "1")] "missing" (.str "1") .equals
      (by decide) (by decide)).2⟩

/-- A matches assertion whose pattern is an invalid regular expression
(unbalanced parenthesis, rejected by the RegExp constructor). -/
def badRegexAssertion : Assertion :=
  { type := .matches, path := none, expected := .str "(", operator := none, message := none }

/-- C4 counterexample: validateAssertions does NOT always return a
report — a matches assertion with an invalid regular expression makes the
uncaught `new RegExp(pattern)` in validateMatches throw out of
validateAssertions instead of being recorded as a failed result. -/
theorem validateAssertions_throws_counterexample :
    validateAssertions demoEngines demoResp [badRegexAssertion] =
      .error "Invalid regular expression: /(/" := rfl

/-- C4 amended: an invalid JSONPath in a bodyJsonPath assertion is indeed
recorded as a failed ValidationResult carrying "JSONPath error: ..." and a
report is still returned (the source wraps the query in try/catch); but an
invalid regular expression in a matches assertion is NOT caught — the
exception from `new RegExp` propagates out of validateAssertions. -/
theorem assertionEngine_error_handling_amended :
    (∀ (E : JsEngines) (resp : HttpResponseM) (p : String) (expected : JsValue)
        (msg : Option String) (e : String),
      (p == "") = false →
      E.jsonpathQuery resp.data p = .error e →
      validateAssertions E resp [⟨.bodyJsonPath, some p, expected, some .equals, msg⟩] =
        .ok (mkReport [validateJsonPath E resp.data p expected .equals msg]) ∧
      (validateJsonPath E resp.data p expected .equals msg).passed = false ∧
      (validateJsonPath E resp.data p expected .equals msg).error =
        some ("JSONPath error: " ++ e)) ∧
    (∀ (E : JsEngines) (resp : HttpResponseM) (p : String) (msg : Option String) (e : String),
      E.regexCompile p = .error e →
      validateAssertions E resp [⟨.matches, none, .str p, none, msg⟩] = .error e) := by
  constructor
  · intro E resp p expected msg e hp hq
    refine ⟨?_, ?_, ?_⟩
    · simp [validateAssertions, evalAssertions, evalOne, hp, Except.map]
    · simp [validateJsonPath, hq]
    · simp [validateJsonPath, hq]
  · intro E resp p msg e hc
    simp [validateAssertions, evalAssertions, evalOne, validateMatches, hc, Except.map]

/-- Witness for assertionEngine_error_handling_amended at concrete
inputs: the demo engine rejects the path "$[" and the pattern "((". -/
theorem assertionEngine_error_handling_amended_witness :
    (validateAssertions demoEngines demoResp [⟨.bodyJsonPath, some "$[", .str "x", some .equals, none⟩] =
      .ok (mkReport [validateJsonPath demoEngines demoResp.data "$[" (.str "x") .equals none]) ∧
     (validateJsonPath demoEngines demoResp.data "$[" (.str "x") .equals none).passed = false ∧
     (validateJsonPath demoEngines demoResp.data "$[" (.str "x") .equals none).error =
       some ("JSONPath error: " ++ "Lexical error in $[")) ∧
    validateAssertions demoEngines demoResp [⟨.matches, none, .str "((", none, none⟩] =
      .error "Invalid regular expression: /((/" :=
  ⟨assertionEngine_error_handling_amended.1 demoEngines demoResp "$[" (.str "x") none
      "Lexical error in $[" rfl rfl,
   assertionEngine_error_handling_amended.2 demoEngines demoResp "((" none
      "Invalid regular expression: /((/" rfl⟩

/-- The validateAssertions switch records no result for an assertion
exactly when isHandled rejects it. -/
theorem evalOne_skip_iff (E : JsEngines) (resp : HttpResponseM) (a : Assertion) :
    evalOne E resp a = .ok none ↔ isHandled resp a = false := by
  rcases a with ⟨ty, path, expected, op, msg⟩
  cases ty <;>
    rcases path with _ | p <;>
    rcases hm : resp.metrics with _ | m <;>
    (try by_cases hp : p = "") <;>
    (try by_cases hd : m.duration = 0) <;>
    (try cases hv : validateContentType resp.headers expected msg) <;>
    (try cases hv2 : validateMatches E resp.data expected msg) <;>
    simp_all [evalOne, isHandled, Except.map]

/-- When the evaluation loop completes without a thrown exception, the
recorded results are in bijection (in order) with the handled
assertions. -/
theorem evalAssertions_ok_length (E : JsEngines) (resp : HttpResponseM) :
    ∀ (as : List Assertion) (rs : List ValidationResult),
      evalAssertions E resp as = .ok rs →
      rs.length = (as.filter (fun a => isHandled resp a)).length := by
  intro as
  induction as with
  | nil =>
    intro rs h
    simp [evalAssertions] at h
    simp [← h]
  | cons a as ih =>
    intro rs h
    unfold evalAssertions at h
    cases h1 : evalOne E resp a with
    | error e => rw [h1] at h; exact absurd h (by simp)
    | ok o =>
      rw [h1] at h
      cases o with
      | none =>
        have hna : isHandled resp a = false := (evalOne_skip_iff E resp a).mp h1
        simp only [List.filter, hna]
        exact ih rs h
      | some r =>
        cases h2 : evalAssertions E resp as with
        | error e => rw [h2] at h; exact absurd h (by simp)
        | ok rs' =>
          rw [h2] at h
          have hrs : rs = r :: rs' := by
            simpa using h.symm
          have hha : isHandled resp a = true := by
            by_contra hcon
            have : evalOne E resp a = .ok none :=
              (evalOne_skip_iff E resp a).mpr (Bool.eq_false_iff.mpr hcon)
            rw [this] at h1
            simp at h1
          subst hrs
          simp only [List.filter, hha, List.length_cons]
          exact congrArg Nat.succ (ih rs' h2)

/-- Filtered-length partition: passed plus not-passed counts sum to the
total. -/
theorem length_filter_add_not (rs : List ValidationResult) :
    (rs.filter (fun r => r.passed)).length + (rs.filter (fun r => !r.passed)).length = rs.length := by
  induction rs with
  | nil => simp
  | cons r rs ih =>
    by_cases h : r.passed <;> simp [List.filter, h] <;> omega

/-- The result the validateAssertions switch records for one assertion,
when it records one: some r when a result is pushed, none when the case
falls through (or would throw — a run returning a report had no such
assertion). -/
def evalRecorded (E : JsEngines) (resp : HttpResponseM) (a : Assertion) : Option ValidationResult :=
  match evalOne E resp a with
  | .ok (some r) => some r
  | _ => none

/-- The recorded results are exactly the per-assertion recorded results
of the input list, in input order (filterMap preserves order and drops
only the skipped assertions). -/
theorem evalAssertions_ok_results (E : JsEngines) (resp : HttpResponseM) :
    ∀ (as : List Assertion) (rs : List ValidationResult),
      evalAssertions E resp as = .ok rs → rs = as.filterMap (evalRecorded E resp) := by
  intro as
  induction as with
  | nil =>
    intro rs h
    simp [evalAssertions] at h
    simp [← h]
  | cons a as ih =>
    intro rs h
    unfold evalAssertions at h
    cases h1 : evalOne E resp a with
    | error e => rw [h1] at h; exact absurd h (by simp)
    | ok o =>
      rw [h1] at h
      cases o with
      | none =>
        simp [List.filterMap_cons, evalRecorded, h1]
        exact ih rs h
      | some r =>
        cases h2 : evalAssertions E resp as with
        | error e => rw [h2] at h; exact absurd h (by simp)
        | ok rs' =>
          rw [h2] at h
          have hrs : rs = r :: rs' := by simpa using h.symm
          subst hrs
          simp [List.filterMap_cons, evalRecorded, h1]
          exact ih rs' h2

/-- A run that returns a report evaluated every assertion of the list
without throwing. -/
theorem evalAssertions_ok_no_throw (E : JsEngines) (resp : HttpResponseM) :
    ∀ (as : List Assertion) (rs : List ValidationResult),
      evalAssertions E resp as = .ok rs →
      ∀ a ∈ as, ∃ o, evalOne E resp a = .ok o := by
  intro as
  induction as with
  | nil => intro rs h a ha; simp at ha
  | cons b as ih =>
    intro rs h a ha
    unfold evalAssertions at h
    cases h1 : evalOne E resp b with
    | error e => rw [h1] at h; exact absurd h (by simp)
    | ok o =>
      rw [h1] at h
      rcases List.mem_cons.mp ha with rfl | hmem
      · exact ⟨o, h1⟩
      · cases o with
        | none => exact ih rs h a hmem
        | some r =>
          cases h2 : evalAssertions E resp as with
          | error e => rw [h2] at h; exact absurd h (by simp)
          | ok rs' => exact ih rs' h2 a hmem

/-- A header assertion carrying no path, which the switch silently
skips. -/
def headerNoPathAssertion : Assertion :=
  { type := .header, path := none, expected := .str "x", operator := none, message := none }

/-- C5 counterexample: a one-assertion list whose report counts zero
assertions — a header assertion without a path is skipped by the switch,
so totalAssertions does not equal the input length and results[] has no
entry for it. -/
theorem validateAssertions_counts_counterexample :
    validateAssertions demoEngines demoResp [headerNoPathAssertion] = .ok (mkReport []) ∧
    (mkReport []).totalAssertions = 0 ∧
    (mkReport []).results = [] ∧
    [headerNoPathAssertion].length = 1 := by
  refine ⟨rfl, rfl, rfl, rfl⟩

/-- C5 amended: when validateAssertions returns a report (no assertion
threw), assertions are evaluated in array order and no failure
short-circuits the rest, but the report counts only the HANDLED
assertions: header/bodyJsonPath without a (truthy) path, responseTime
without a truthy metrics duration, and every bodyJson assertion are
skipped and absent from results[]; results[] is exactly the
filterMap of the per-assertion recorded results over the input list —
one entry per handled assertion, in input order — totalAssertions
equals the number of handled assertions (at most n), and passed and
failed counts partition it. -/
theorem validateAssertions_counts_amended (E : JsEngines) (resp : HttpResponseM)
    (as : List Assertion) (report : ValidationReport)
    (h : validateAssertions E resp as = .ok report) :
    report.totalAssertions = (as.filter (fun a => isHandled resp a)).length ∧
    report.results.length = report.totalAssertions ∧
    report.passedAssertions + report.failedAssertions = report.totalAssertions ∧
    report.totalAssertions ≤ as.length ∧
    report.results = as.filterMap (evalRecorded E resp) ∧
    (∀ a ∈ as, (evalRecorded E resp a).isSome = isHandled resp a) := by
  unfold validateAssertions at h
  cases h2 : evalAssertions E resp as with
  | error e => rw [h2] at h; exact absurd h (by simp [Except.map])
  | ok rs =>
    rw [h2] at h
    have hrep : report = mkReport rs := by simpa [Except.map] using h.symm
    subst hrep
    have hlen := evalAssertions_ok_length E resp as rs h2
    refine ⟨by simpa [mkReport] using hlen, by simp [mkReport], ?_, ?_, ?_, ?_⟩
    · simpa [mkReport] using length_filter_add_not rs
    · simp only [mkReport]
      exact hlen ▸ List.length_filter_le _ as
    · simp only [mkReport]
      exact evalAssertions_ok_results E resp as rs h2
    · intro a ha
      obtain ⟨o, ho⟩ := evalAssertions_ok_no_throw E resp as rs h2 a ha
      cases o with
      | none =>
        have hh : isHandled resp a = false := (evalOne_skip_iff E resp a).mp ho
        simp [evalRecorded, ho, hh]
      | some r =>
        have hh : isHandled resp a = true := by
          by_contra hcon
          have hskip : evalOne E resp a = .ok none :=
            (evalOne_skip_iff E resp a).mpr (Bool.eq_false_iff.mpr hcon)
          have hcontra := hskip.symm.trans ho
          simp at hcontra
        simp [evalRecorded, ho, hh]

/-- Witness for validateAssertions_counts_amended: a status assertion
followed by a skipped bodyJson assertion yields a report counting one
handled assertion out of two, whose results list is exactly the
in-order filterMap of the recorded results. -/
theorem validateAssertions_counts_amended_witness :
    (mkReport [validateStatus demoResp.status (.num 200) none]).totalAssertions =
      ([⟨.status, none, .num 200, none, none⟩,
        ⟨.bodyJson, none, .null, none, none⟩].filter
          (fun a => isHandled demoResp a)).length ∧
    (mkReport [validateStatus demoResp.status (.num 200) none]).results =
      ([⟨.status, none, .num 200, none, none⟩,
        ⟨.bodyJson, none, .null, none, none⟩].filterMap
          (evalRecorded demoEngines demoResp)) :=
  ⟨(validateAssertions_counts_amended demoEngines demoResp
      [⟨.status, none, .num 200, none, none⟩, ⟨.bodyJson, none, .null, none, none⟩]
      (mkReport [validateStatus demoResp.status (.num 200) none]) rfl).1,
   (validateAssertions_counts_amended demoEngines demoResp
      [⟨.status, none, .num 200, none, none⟩, ⟨.bodyJson, none, .null, none, none⟩]
      (mkReport [validateStatus demoResp.status (.num 200) none]) rfl).2.2.2.2.1⟩

/-- Core of the stopOnFailure argument: if every test before index j
succeeds and the test at j fails, the sequential loop returns exactly the
results of tests 0..j (in order) and reports stopped. -/
theorem executeSequential_stop_core {α : Type} (exec : α → BatchResultM) :
    ∀ (tests : List α) (j : Nat) (hj : j < tests.length),
      (∀ i (hi : i < j), (exec (tests.get ⟨i, Nat.lt_trans hi hj⟩)).success = true) →
      (exec (tests.get ⟨j, hj⟩)).success = false →
      executeSequential exec true tests = ((tests.take (j + 1)).map exec, true) := by
  intro tests
  induction tests with
  | nil => intro j hj; exact absurd hj (by simp)
  | cons t ts ih =>
    intro j hj hok hfail
    cases j with
    | zero =>
      simp only [List.get] at hfail
      simp [executeSequential, hfail]
    | succ j' =>
      have hok0 : (exec t).success = true := hok 0 (Nat.succ_pos j')
      have hj' : j' < ts.length := Nat.lt_of_succ_lt_succ hj
      have hrec := ih j' hj' (fun i hi => hok (i + 1) (Nat.succ_lt_succ hi)) hfail
      simp [executeSequential, hok0, hrec]

/-- C2: in sequential mode with stopOnFailure, if the test at index j is
the first failure then the report's results are exactly the results of
tests 0..j in input order, stopped is true, and no test after index j
contributes a result. -/
theorem executeSequential_stopOnFailure_correct {α : Type} (exec : α → BatchResultM)
    (tests : List α) (j : Nat) (hj : j < tests.length)
    (hok : ∀ i (hi : i < j), (exec (tests.get ⟨i, Nat.lt_trans hi hj⟩)).success = true)
    (hfail : (exec (tests.get ⟨j, hj⟩)).success = false) :
    (executeBatchSequential exec true tests).results = (tests.take (j + 1)).map exec ∧
    (executeBatchSequential exec true tests).stopped = true ∧
    (executeBatchSequential exec true tests).totalTests = j + 1 := by
  have hcore := executeSequential_stop_core exec tests j hj hok hfail
  refine ⟨?_, ?_, ?_⟩ <;> simp [executeBatchSequential, hcore, generateReport]
  omega

/-- A concrete three-test run for the stopOnFailure witness: test 1
fails, tests 0 and 2 succeed. -/
def demoExecSeq (n : Nat) : BatchResultM :=
  { name := toString n, url := "https://example/" ++ toString n, method := "GET"
    success := n != 1, status := some (if n = 1 then 500 else 200)
    statusText := none, error := none, assertionResults := none }

/-- Witness for executeSequential_stopOnFailure_correct: tests [A ok,
B fail, C ok] produce exactly [A, B] with stopped = true. -/
theorem executeSequential_stopOnFailure_correct_witness :
    (executeBatchSequential demoExecSeq true [0, 1, 2]).results =
      ([0, 1, 2].take 2).map demoExecSeq ∧
    (executeBatchSequential demoExecSeq true [0, 1, 2]).stopped = true ∧
    (executeBatchSequential demoExecSeq true [0, 1, 2]).totalTests = 2 :=
  executeSequential_stopOnFailure_correct demoExecSeq [0, 1, 2] 1 (by decide)
    (fun i hi => by interval_cases i; rfl) (by decide)

/-- The retry loop issues exactly one call when the first attempt
resolves. -/
theorem runRetry_ok_first (out : Nat → Except ErrM HttpResponseM) (start n : Nat)
    (r : HttpResponseM) (h : out start = .ok r) :
    runRetry out start (n + 1) = (1, .ok r) := by
  simp [runRetry, h]

/-- The sequential loop never stops when every result succeeds. -/
theorem executeSequential_all_success {α : Type} (exec : α → BatchResultM) :
    ∀ (tests : List α), (∀ t ∈ tests, (exec t).success = true) →
      executeSequential exec true tests = (tests.map exec, false) := by
  intro tests
  induction tests with
  | nil => intro _; simp [executeSequential]
  | cons t ts ih =>
    intro hall
    have ht : (exec t).success = true := hall t (List.mem_cons_self t ts)
    have hrec := ih (fun u hu => hall u (List.mem_cons_of_mem t hu))
    simp [executeSequential, ht, hrec]

/-- C10: a test's success flag reflects only the HTTP call — when the
HTTP request resolves, the BatchTestResult has success = true no matter
how many of its assertions fail; and since stopOnFailure inspects only
the success flag, a batch of such tests is never stopped by assertion
failures alone. -/
theorem success_reflects_http_only :
    (∀ (E : JsEngines) (resp : HttpResponseM) (opts : BatchOptsM) (test : TestM)
        (report : ValidationReport),
      validateAssertions E resp test.assertions = .ok report →
      (executeTest E (fun _ => .ok resp) opts test).1.success = true) ∧
    (∀ {α : Type} (exec : α → BatchResultM) (tests : List α),
      (∀ t ∈ tests, (exec t).success = true) →
      (executeBatchSequential exec true tests).stopped = false) := by
  constructor
  · intro E resp opts test report hrep
    have hrun : runRetry (fun _ => .ok resp) 0 (if opts.retryOnFailure then opts.retryAttempts + 1 else 1) =
        (1, .ok resp) := by
      cases hb : opts.retryOnFailure <;> simp [hb, runRetry]
    cases hassert : test.assertions with
    | nil => simp [executeTest, hrun, hassert]
    | cons a as =>
      rw [hassert] at hrep
      simp [executeTest, hrun, hassert, hrep]
  · intro α exec tests hall
    simp [executeBatchSequential, executeSequential_all_success exec tests hall, generateReport]

/-- An always-failing assertion against demoResp (expects status 500 but
the response is 200). -/
def failingStatusAssertion : Assertion :=
  { type := .status, path := none, expected := .num 500, operator := none, message := none }

/-- Witness for success_reflects_http_only: a test whose only assertion
fails still reports success = true, and a batch of two such tests is not
stopped. -/
theorem success_reflects_http_only_witness :
    (executeTest demoEngines (fun _ => .ok demoResp)
        ⟨false, 5, true, 0, 30000, false, 0⟩
        ⟨"t", "https://example/ok", none, [failingStatusAssertion], none⟩).1.success = true ∧
    (executeBatchSequential (fun _ : Nat =>
        (executeTest demoEngines (fun _ => .ok demoResp)
          ⟨false, 5, true, 0, 30000, false, 0⟩
          ⟨"t", "https://example/ok", none, [failingStatusAssertion], none⟩).1)
        true [0, 1]).stopped = false := by
  constructor
  · exact success_reflects_http_only.1 demoEngines demoResp
      ⟨false, 5, true, 0, 30000, false, 0⟩
      ⟨"t", "https://example/ok", none, [failingStatusAssertion], none⟩
      (mkReport [validateStatus demoResp.status (.num 500) none]) rfl
  · exact success_reflects_http_only.2 _ [0, 1]
      (fun t _ => success_reflects_http_only.1 demoEngines demoResp
        ⟨false, 5, true, 0, 30000, false, 0⟩
        ⟨"t", "https://example/ok", none, [failingStatusAssertion], none⟩
        (mkReport [validateStatus demoResp.status (.num 500) none]) rfl)

/-- The axios rejection produced by a 404 response. -/
def err404 : ErrM :=
  { message := "Request failed with status code 404"
    responseStatus := some 404, responseStatusText := some "Not Found" }

/-- An endpoint that returns 404 on every attempt. -/
def out404 : Nat → Except ErrM HttpResponseM := fun _ => .error err404

/-- Persistent rejection: the retry loop exhausts its whole budget,
issuing one HTTP call per attempt. -/
theorem runRetry_const_error (e : ErrM) :
    ∀ (n start : Nat), runRetry (fun _ => .error e) start (n + 1) = (n + 1, .error e) := by
  intro n
  induction n with
  | zero => intro start; simp [runRetry]
  | succ n ih =>
    intro start
    rw [runRetry.eq_def]
    simp [ih (start + 1)]

/-- C3 counterexample: with the orchestrator-level retry budget
(retryOnFailure = true, retryAttempts = 3, the schema maximum), a test
whose every attempt returns 404 issues FOUR HTTP requests — the
executeTest retry loop retries on any thrown error without inspecting the
status, so a 4xx response is retried at the orchestrator level. -/
theorem retry4xx_counterexample :
    (executeTest demoEngines out404 ⟨false, 5, false, 0, 30000, true, 3⟩
        ⟨"t404", "https://example/404", none, [], none⟩).2 = 4 ∧
    (executeTest demoEngines out404 ⟨false, 5, false, 0, 30000, true, 3⟩
        ⟨"t404", "https://example/404", none, [], none⟩).2 ≠ 1 ∧
    (executeTest demoEngines out404 ⟨false, 5, false, 0, 30000, true, 3⟩
        ⟨"t404", "https://example/404", none, [], none⟩).1.success = false ∧
    (executeTest demoEngines out404 ⟨false, 5, false, 0, 30000, true, 3⟩
        ⟨"t404", "https://example/404", none, [], none⟩).1.status = some 404 := by
  refine ⟨rfl, by decide, rfl, rfl⟩

/-- C3 amended: at the executor level (HttpTestClient), shouldRetry
rejects every 4xx response — it accepts only transport errors (no
response) and 5xx — so a test returning 404 (or any 4xx) issues exactly
one HTTP request regardless of the configured executor retry budget
(including 5) and regardless of the retry count already accumulated;
likewise the orchestrator with retryOnFailure = false issues exactly
one request.  But the orchestrator-level retryOnFailure loop in
BatchTestService retries on any error — a persistent 404 with
retryAttempts = k issues k + 1 HTTP requests. -/
theorem retry4xx_amended :
    (∀ (budget : Nat) (msg : String) (st : Option String),
      clientRun (fun _ => .error ⟨msg, some 404, st⟩) budget 0 =
        (1, .error ⟨msg, some 404, st⟩)) ∧
    shouldRetry (some 404) = false ∧
    (∀ (k : Nat) (name url : String),
      (executeTest demoEngines out404 ⟨false, 5, false, 0, 30000, true, k⟩
          ⟨name, url, none, [], none⟩).2 = k + 1) ∧
    (∀ (budget c : Nat) (msg : String) (st : Option String) (s : Nat),
      400 ≤ s → s < 500 →
      clientRun (fun _ => .error ⟨msg, some s, st⟩) budget c =
        (1, .error ⟨msg, some s, st⟩)) ∧
    shouldRetry none = true ∧
    (∀ s : Nat, 500 ≤ s → s < 600 → shouldRetry (some s) = true) ∧
    (∀ s : Nat, 400 ≤ s → s < 500 → shouldRetry (some s) = false) ∧
    (∀ (k : Nat) (name url : String),
      (executeTest demoEngines out404 ⟨false, 5, false, 0, 30000, false, k⟩
          ⟨name, url, none, [], none⟩).2 = 1) := by
  refine ⟨?_, rfl, ?_, ?_, rfl, ?_, ?_, ?_⟩
  · intro budget msg st
    cases budget <;> simp [clientRun, shouldRetry]
  · intro k name url
    have hr : runRetry out404 0 (k + 1) = (k + 1, .error err404) :=
      runRetry_const_error err404 k 0
    simp [executeTest, hr]
  · intro budget c msg st s h4 h5
    have hs : shouldRetry (some s) = false := by
      simp [shouldRetry]
      omega
    cases budget <;> simp [clientRun, hs]
  · intro s h5 h6
    simp [shouldRetry]
    omega
  · intro s h4 h5
    simp [shouldRetry]
    omega
  · intro k name url
    have hr : runRetry out404 0 1 = (1, .error err404) :=
      runRetry_const_error err404 0 0
    simp [executeTest, hr]

/-- Witness for retry4xx_amended at concrete inputs: a 418 response is
not retried by the client at budget 5 from retry count 2, shouldRetry
rejects 418, and with retryOnFailure = false the orchestrator issues one
request on a persistent 404. -/
theorem retry4xx_amended_witness :
    clientRun (fun _ => .error { message := "Teapot", responseStatus := some 418, responseStatusText := none }) 5 2 =
      (1, .error { message := "Teapot", responseStatus := some 418, responseStatusText := none }) ∧
    shouldRetry (some 418) = false ∧
    (executeTest demoEngines out404 ⟨false, 5, false, 0, 30000, false, 3⟩
        ⟨"t", "https://example/404", none, [], none⟩).2 = 1 :=
  ⟨retry4xx_amended.2.2.2.1 5 2 "Teapot" none 418 (by decide) (by decide),
   retry4xx_amended.2.2.2.2.2.2.1 418 (by decide) (by decide),
   retry4xx_amended.2.2.2.2.2.2.2 3 "t" "https://example/404"⟩

/-- C6: the OAuth2 token-cache policy of fetchOAuth2Token — a cached
token under the (clientId, tokenUrl) key is returned (with no network
fetch) exactly while now < its stored expiry; an expired or absent entry
is treated as a miss and causes a fresh fetch whose result is cached with
expiry now + expiresIn seconds, where expiresIn is expires_in defaulted
to 3600 when the response carries none. -/
theorem fetchOAuth2Token_cache_policy :
    (∀ (now : Nat) (fetchR : Except String TokenResponse) (cfg : OAuth2ConfigM)
        (s : AuthStateM) (tok : TokenResponse) (e : Nat),
      objGet s.tokenCache (cacheKey cfg) = some tok →
      objGet s.tokenExpiryTimes (cacheKey cfg) = some e →
      now < e →
      fetchOAuth2Token now fetchR cfg s = .ok (tok, s, 0)) ∧
    (∀ (now : Nat) (tok : TokenResponse) (cfg : OAuth2ConfigM) (s : AuthStateM) (u : String),
      cacheHit now cfg s = none →
      cfg.tokenUrl = some u →
      fetchOAuth2Token now (.ok tok) cfg s = .ok (tok, cacheWrite now cfg tok s, 1) ∧
      objGet (cacheWrite now cfg tok s).tokenExpiryTimes (cacheKey cfg) =
        some (now + jsExpiresIn tok * 1000)) ∧
    (∀ (tok : TokenResponse) (n : Nat), tok.expires_in = some n → n ≠ 0 → jsExpiresIn tok = n) ∧
    (∀ (tok : TokenResponse), tok.expires_in = none → jsExpiresIn tok = 3600) ∧
    (∀ (now : Nat) (cfg : OAuth2ConfigM) (s : AuthStateM) (e : Nat),
      objGet s.tokenExpiryTimes (cacheKey cfg) = some e → e ≤ now →
      cacheHit now cfg s = none) ∧
    (∀ (now : Nat) (cfg : OAuth2ConfigM) (s : AuthStateM),
      objGet s.tokenCache (cacheKey cfg) = none →
      cacheHit now cfg s = none) := by
  refine ⟨?_, ?_, ?_, ?_, ?_, ?_⟩
  · intro now fetchR cfg s tok e h1 h2 h3
    have h0 : 0 < e := Nat.lt_of_le_of_lt (Nat.zero_le now) h3
    simp [fetchOAuth2Token, cacheHit, h1, h2, h0, h3]
  · intro now tok cfg s u hmiss hurl
    constructor
    · simp [fetchOAuth2Token, hmiss, hurl]
    · simp [cacheWrite]
      induction s.tokenExpiryTimes with
      | nil => simp [objSet, objGet]
      | cons kv rest ih =>
        by_cases hk : kv.1 == cacheKey cfg
        · simp [objSet, objGet, hk]
        · simp only [objSet, hk]
          simpa [objGet, hk] using ih
  · intro tok n h hn; simp [jsExpiresIn, h, hn]
  · intro tok h; simp [jsExpiresIn, h]
  · intro now cfg s e h1 h2
    have : ¬now < e := Nat.not_lt.mpr h2
    cases h0 : objGet s.tokenCache (cacheKey cfg) <;> simp [cacheHit, h0, h1, this]
  · intro now cfg s h
    simp [cacheHit, h]

/-- The demo client-credentials configuration. -/
def demoOAuthCfg : OAuth2ConfigM :=
  { clientId := "client", clientSecret := some "secret", scope := none
    tokenUrl := some "https://auth/token" }

/-- The demo token response (expires_in = 3600 seconds). -/
def demoToken : TokenResponse :=
  { access_token := "tok-abc", token_type := some "Bearer", expires_in := some 3600
    refresh_token := none, scope := none }

/-- Witness for fetchOAuth2Token_cache_policy: a valid cached entry is
served without a fetch; an empty cache triggers one fetch that is then
cached with the 3600s expiry. -/
theorem fetchOAuth2Token_cache_policy_witness :
    fetchOAuth2Token 500 (.error "network down") demoOAuthCfg
      { tokenCache := [("client:https://auth/token", demoToken)]
        tokenExpiryTimes := [("client:https://auth/token", 3601000)] } =
      .ok (demoToken,
        { tokenCache := [("client:https://auth/token", demoToken)]
          tokenExpiryTimes := [("client:https://auth/token", 3601000)] }, 0) ∧
    fetchOAuth2Token 1000 (.ok demoToken) demoOAuthCfg { tokenCache := [], tokenExpiryTimes := [] } =
      .ok (demoToken,
        cacheWrite 1000 demoOAuthCfg demoToken { tokenCache := [], tokenExpiryTimes := [] }, 1) :=
  ⟨fetchOAuth2Token_cache_policy.1 500 (.error "network down") demoOAuthCfg _ demoToken 3601000
      (by decide) (by decide) (by decide),
   (fetchOAuth2Token_cache_policy.2.1 1000 demoToken demoOAuthCfg
      { tokenCache := [], tokenExpiryTimes := [] } "https://auth/token" (by decide) rfl).1⟩

/-- The cache contents after one completed fetch of demoToken at
now = 1000: the token under "client:https://auth/token" with expiry
1000 + 3600 * 1000. -/
def demoWrittenCache : AuthStateM :=
  { tokenCache := [("client:https://auth/token", demoToken)]
    tokenExpiryTimes := [("client:https://auth/token", 3601000)] }

/-- The final system of the interleaving in which both callers check the
cache before either fetch completes: two fetches issued. -/
def oauthAllMissFinal : OAuthSys :=
  { phases := [.done demoToken, .done demoToken], cache := demoWrittenCache, fetchCount := 2 }

/-- The final system of the sequential schedule (the second caller checks
only after the first caller's fetch completed): one fetch issued. -/
def oauthSequentialFinal : OAuthSys :=
  { phases := [.done demoToken, .done demoToken], cache := demoWrittenCache, fetchCount := 1 }

/-- C7 counterexample: two concurrent callers needing the same missing
client-credentials token can BOTH issue a token fetch — the interleaving
in which both run their cache check before either fetch completes is
reachable and ends with fetchCount = 2, not 1; the source has no
pending-fetch de-duplication map. -/
theorem oauth_dedup_counterexample :
    OAuthReach 1000 demoOAuthCfg demoToken (oauthInit 2) oauthAllMissFinal ∧
    oauthAllMissFinal.fetchCount = 2 ∧
    oauthAllMissFinal.fetchCount ≠ 1 := by
  refine ⟨?_, rfl, by decide⟩
  exact OAuthReach.tail (oauthInit 2)
    { phases := [.done demoToken, .fetching], cache := demoWrittenCache, fetchCount := 2 }
    oauthAllMissFinal
    (OAuthReach.tail (oauthInit 2)
      { phases := [.fetching, .fetching], cache := { tokenCache := [], tokenExpiryTimes := [] }, fetchCount := 2 }
      { phases := [.done demoToken, .fetching], cache := demoWrittenCache, fetchCount := 2 }
      (OAuthReach.tail (oauthInit 2)
        { phases := [.fetching, .ready], cache := { tokenCache := [], tokenExpiryTimes := [] }, fetchCount := 1 }
        { phases := [.fetching, .fetching], cache := { tokenCache := [], tokenExpiryTimes := [] }, fetchCount := 2 }
        (OAuthReach.tail (oauthInit 2) (oauthInit 2)
          { phases := [.fetching, .ready], cache := { tokenCache := [], tokenExpiryTimes := [] }, fetchCount := 1 }
          (OAuthReach.refl (oauthInit 2))
          (OAuthStep.checkMissStep (oauthInit 2) 0 rfl rfl))
        (OAuthStep.checkMissStep _ 1 rfl rfl))
      (OAuthStep.completeStep _ 0 rfl))
    (OAuthStep.completeStep _ 1 rfl)

/-- C7 amended: there is no in-flight de-duplication — each caller that
observes a cache miss issues its own fetch, so two concurrent callers
that both check before either fetch completes issue two fetches; the
cache de-duplicates only across time: a caller that checks after the
other's fetch has completed and cached a still-valid token reuses it,
for one fetch in total. -/
theorem oauth_dedup_amended :
    (OAuthReach 1000 demoOAuthCfg demoToken (oauthInit 2) oauthAllMissFinal ∧
     oauthAllMissFinal.fetchCount = 2) ∧
    (OAuthReach 1000 demoOAuthCfg demoToken (oauthInit 2) oauthSequentialFinal ∧
     oauthSequentialFinal.fetchCount = 1 ∧
     oauthSequentialFinal.phases = [.done demoToken, .done demoToken]) := by
  refine ⟨⟨?_, rfl⟩, ⟨?_, rfl, rfl⟩⟩
  · exact OAuthReach.tail (oauthInit 2)
      { phases := [.done demoToken, .fetching], cache := demoWrittenCache, fetchCount := 2 }
      oauthAllMissFinal
      (OAuthReach.tail (oauthInit 2)
        { phases := [.fetching, .fetching], cache := { tokenCache := [], tokenExpiryTimes := [] }, fetchCount := 2 }
        { phases := [.done demoToken, .fetching], cache := demoWrittenCache, fetchCount := 2 }
        (OAuthReach.tail (oauthInit 2)
          { phases := [.fetching, .ready], cache := { tokenCache := [], tokenExpiryTimes := [] }, fetchCount := 1 }
          { phases := [.fetching, .fetching], cache := { tokenCache := [], tokenExpiryTimes := [] }, fetchCount := 2 }
          (OAuthReach.tail (oauthInit 2) (oauthInit 2)
            { phases := [.fetching, .ready], cache := { tokenCache := [], tokenExpiryTimes := [] }, fetchCount := 1 }
            (OAuthReach.refl (oauthInit 2))
            (OAuthStep.checkMissStep (oauthInit 2) 0 rfl rfl))
          (OAuthStep.checkMissStep _ 1 rfl rfl))
        (OAuthStep.completeStep _ 0 rfl))
      (OAuthStep.completeStep _ 1 rfl)
  · exact OAuthReach.tail (oauthInit 2)
      { phases := [.done demoToken, .ready], cache := demoWrittenCache, fetchCount := 1 }
      oauthSequentialFinal
      (OAuthReach.tail (oauthInit 2)
        { phases := [.fetching, .ready], cache := { tokenCache := [], tokenExpiryTimes := [] }, fetchCount := 1 }
        { phases := [.done demoToken, .ready], cache := demoWrittenCache, fetchCount := 1 }
        (OAuthReach.tail (oauthInit 2) (oauthInit 2)
          { phases := [.fetching, .ready], cache := { tokenCache := [], tokenExpiryTimes := [] }, fetchCount := 1 }
          (OAuthReach.refl (oauthInit 2))
          (OAuthStep.checkMissStep (oauthInit 2) 0 rfl rfl))
        (OAuthStep.completeStep _ 0 rfl))
      (OAuthStep.checkHitStep _ 1 demoToken rfl rfl)

/-- The scheduler invariant holds initially. -/
theorem parInv_init (k n : Nat) : ParInv k (parInit n) := by
  refine ⟨?_, ?_, ?_, ?_⟩
  · simp [parInit]
  · simp [parInit]
  · simp [parInit]
  · simp [parInit, List.nodup_range]

/-- Every scheduler step preserves the invariant. -/
theorem parInv_step (k : Nat) {s s' : ParState} (h : ParStep k s s') (hinv : ParInv k s) :
    ParInv k s' := by
  obtain ⟨hsub, hcard, hqueue, hnodup⟩ := hinv
  cases h with
  | start t ts hq hab hlt =>
    have htmem : t ∈ s.queue := hq ▸ List.mem_cons_self t ts
    have htnot : t ∉ s.executing := hqueue t htmem
    have hnodup' : (t :: ts).Nodup := hq ▸ hnodup
    refine ⟨?_, ?_, ?_, ?_⟩
    · exact Finset.insert_subset_insert t hsub
    · rw [Finset.card_insert_of_not_mem htnot]
      exact hlt
    · intro u hu
      have humem : u ∈ s.queue := hq ▸ List.mem_cons_of_mem t hu
      have hune : u ≠ t := by
        intro heq
        subst heq
        exact (List.nodup_cons.mp hnodup').1 hu
      simp only [Finset.mem_insert]
      push_neg
      exact ⟨hune, hqueue u humem⟩
    · exact (List.nodup_cons.mp hnodup').2
  | finish t ab htr =>
    exact ⟨(Finset.erase_subset t s.running).trans hsub, hcard, hqueue, hnodup⟩
  | removeDone t hte htnr =>
    refine ⟨Finset.subset_erase.mpr ⟨hsub, htnr⟩, ?_, ?_, hnodup⟩
    · exact (Finset.card_erase_le).trans hcard
    · intro u hu
      intro hmem
      exact hqueue u hu (Finset.mem_of_mem_erase hmem)

/-- The invariant holds in every reachable state. -/
theorem parInv_reach (k : Nat) {s₀ s : ParState} (h : ParReach k s₀ s) (h0 : ParInv k s₀) :
    ParInv k s := by
  induction h with
  | refl => exact h0
  | tail s₂ s₃ hr hs ih => exact parInv_step k hs ih

/-- C1: in parallel mode with maxConcurrent = k (1 ≤ k ≤ 10), at no
point reachable during executeBatch's executeParallel loop does the
number of concurrently-executing tests (started and not yet completed)
exceed k. -/
theorem executeParallel_concurrency_bound (k n : Nat) (s : ParState)
    (_hk1 : 1 ≤ k) (_hk10 : k ≤ 10) (hreach : ParReach k (parInit n) s) :
    s.running.card ≤ k := by
  have hinv := parInv_reach k hreach (parInv_init k n)
  exact (Finset.card_le_card hinv.1).trans hinv.2.1

/-- Witness for executeParallel_concurrency_bound: with k = 2 and three
tests, the state after admitting the first test is reachable and has one
running test. -/
theorem executeParallel_concurrency_bound_witness :
    ({ queue := [1, 2], executing := insert 0 ∅, running := insert 0 ∅
       results := [], aborted := false } : ParState).running.card ≤ 2 :=
  executeParallel_concurrency_bound 2 3
    { queue := [1, 2], executing := insert 0 ∅, running := insert 0 ∅
      results := [], aborted := false }
    (by decide) (by decide)
    (ParReach.tail (parInit 3) (parInit 3) _
      (ParReach.refl (parInit 3))
      (ParStep.start (parInit 3) 0 [1, 2] rfl rfl (by decide)))
